import Mathlib

/-!
Verification of the noet backend's session-token service and SSE event hub.

The definitions below are a shallow embedding of the Go backend
(`main.go` of the noet repository).  SQLite tables become Lean lists of
records, `time.Time` becomes an abstract `Int` timestamp (seconds),
byte strings become `List Nat`, and the cryptographic primitives
(sha256, base64, HMAC signing, bcrypt) are passed in as function
parameters, since only their input/output behaviour matters to the
properties proved here.  Fallible steps (DB inserts, signing, the
random source) get explicit success flags where the Go code branches on
their error values.
-/

namespace Noet

/-- Seconds in one day (`24 * time.Hour`). -/
def secondsPerDay : Int := 24 * 60 * 60

/-- Access-token lifetime: `7 * 24 * time.Hour`. -/
def sevenDays : Int := 7 * secondsPerDay

/-- Refresh-token lifetime: `30 * 24 * time.Hour`. -/
def thirtyDays : Int := 30 * secondsPerDay

/-- `make([]byte, 32)` in `createRefreshToken`: 32 random bytes. -/
def refreshTokenNumBytes : Nat := 32

/-- `make([]byte, 32)` in `getOrCreateJWTSecret`: 32 random bytes. -/
def jwtSecretNumBytes : Nat := 32

/-- One row of the `refresh_tokens` table. -/
structure RefreshTokenRecord where
  userId : Int
  tokenHash : String
  expiresAt : Int
  createdAt : Int
deriving Repr, DecidableEq

/-- The `refresh_tokens` table. -/
structure TokenDB where
  refreshTokens : List RefreshTokenRecord
deriving Repr, DecidableEq

/-- One row of the `users` table (password hash included; `created_at`
is irrelevant to the claims and omitted). -/
structure UserRow where
  id : Int
  username : String
  passwordHash : String
deriving Repr, DecidableEq

/-- `DELETE FROM refresh_tokens WHERE user_id = ? AND expires_at < ?`
executed inside `createRefreshToken` (lazy garbage collection). -/
def cleanupExpired (db : TokenDB) (userId : Int) (now : Int) : TokenDB :=
  ⟨db.refreshTokens.filter fun r => !(r.userId == userId && r.expiresAt < now)⟩

/-- `createRefreshToken`: draw 32 random bytes (`tokenBytes`, produced by
`rand.Read`, which fails when `randOk = false`), URL-base64-encode them
into the raw token (`enc`), hash the raw token (`hash`, standing for
sha256 followed by std-base64 of the digest), sweep the owner's expired
rows, and insert a row with `expires_at = now + 30 days`
(`INSERT` fails when `insertOk = false`).  On error the Go function
returns `("", err)` leaving the table in whatever state it reached; the
`Except` error value carries that table state. -/
def createRefreshToken (hash : String → String) (enc : List Nat → String)
    (db : TokenDB) (userId : Int) (tokenBytes : List Nat) (now : Int)
    (randOk insertOk : Bool) : Except TokenDB (String × TokenDB) :=
  if !randOk then .error db
  else
    let refreshToken := enc tokenBytes
    let tokenHash := hash refreshToken
    let cleaned := cleanupExpired db userId now
    if !insertOk then .error cleaned
    else .ok (refreshToken,
      ⟨cleaned.refreshTokens ++ [⟨userId, tokenHash, now + thirtyDays, now⟩]⟩)

/-- `validateRefreshToken`: hash the input and look up a row with
`token_hash = ? AND expires_at > now`; `none` plays the role of the
`sql.ErrNoRows` error. -/
def validateRefreshToken (hash : String → String) (db : TokenDB)
    (refreshToken : String) (now : Int) : Option Int :=
  (db.refreshTokens.find? fun r =>
    r.tokenHash == hash refreshToken && now < r.expiresAt).map (·.userId)

/-- `revokeRefreshToken`: `DELETE FROM refresh_tokens WHERE token_hash = ?`. -/
def revokeRefreshToken (hash : String → String) (db : TokenDB)
    (refreshToken : String) : TokenDB :=
  ⟨db.refreshTokens.filter fun r => !(r.tokenHash == hash refreshToken)⟩

/-- The `settings` table, as key/value pairs (`updated_at` omitted). -/
structure SettingsDB where
  settings : List (String × String)
deriving Repr, DecidableEq

/-- `getOrCreateJWTSecret`: read `settings['jwt_secret']`; if absent,
generate 32 random bytes (`randSecret`), store their base64 encoding
(`enc`) and return them; if present, return the base64 decoding (`dec`)
of the stored value and leave the table untouched. -/
def getOrCreateJWTSecret (enc : List Nat → String) (dec : String → List Nat)
    (db : SettingsDB) (randSecret : List Nat) : List Nat × SettingsDB :=
  match db.settings.find? (fun kv => kv.1 == "jwt_secret") with
  | some kv => (dec kv.2, db)
  | none => (randSecret, ⟨db.settings ++ [("jwt_secret", enc randSecret)]⟩)

/-- The JWT claim set built by `generateJWT` (struct `Claims`). -/
structure JWTClaims where
  userId : Int
  username : String
  expiresAt : Int
  issuedAt : Int
deriving Repr, DecidableEq

/-- A signed JWT: claims plus the HMAC-SHA256 signature over them. -/
structure SignedJWT where
  claims : JWTClaims
  sig : String
deriving Repr, DecidableEq

/-- A token string on the wire: either it parses into claims+signature
or it is structurally malformed (parse error in `jwt.ParseWithClaims`). -/
inductive JWTWire where
  | malformed
  | good (t : SignedJWT)
deriving Repr, DecidableEq

/-- `generateJWT`: claims carry the user's id and name,
`ExpiresAt = now + 7 days`, `IssuedAt = now`; the token is signed with
the process secret (`mac secret claims` models HMAC-SHA256). -/
def generateJWT (mac : List Nat → JWTClaims → String) (secret : List Nat)
    (u : UserRow) (now : Int) : SignedJWT :=
  let claims : JWTClaims := ⟨u.id, u.username, now + sevenDays, now⟩
  ⟨claims, mac secret claims⟩

/-- `validateJWT`: a malformed token, a signature that does not match
the process secret's MAC over the claims, or an expiry not in the
future all yield `none` (the single `Invalid` outcome). -/
def validateJWT (mac : List Nat → JWTClaims → String) (secret : List Nat)
    (w : JWTWire) (now : Int) : Option JWTClaims :=
  match w with
  | .malformed => none
  | .good t =>
    if t.sig == mac secret t.claims && now < t.claims.expiresAt then
      some t.claims
    else none

/-- `hasAnyUsers`: `SELECT COUNT(*) FROM users` compared with 0. -/
def hasAnyUsers (users : List UserRow) : Bool :=
  decide (0 < users.length)

/-- `createUser`: refuse if a user already exists, otherwise hash the
password (`pwHash` models bcrypt) and insert the row.  `LastInsertId`
on the autoincrement column is modelled as `length + 1` (the function
only ever inserts into an empty table). -/
def createUser (pwHash : String → String) (users : List UserRow)
    (username password : String) : Except String (UserRow × List UserRow) :=
  if hasAnyUsers users then
    .error "user registration is not allowed - user already exists"
  else
    let u : UserRow := ⟨(users.length : Int) + 1, username, pwHash password⟩
    .ok (u, users ++ [u])

/-- Outcome of the `POST /api/auth/refresh` handler, by HTTP status. -/
inductive RefreshResult where
  | badRequest
  | unauthorized
  | serverError
  | ok (userId : Int) (username : String) (newRefreshToken : String)
deriving Repr, DecidableEq

/-- The `POST /api/auth/refresh` handler, in the order the Go code runs:
decode the body (`payload = none` is a JSON decode error), reject an
empty token, `validateRefreshToken`, load the user row, `generateJWT`
(fails when `jwtOk = false`), `createRefreshToken` (new token first!),
and only then `revokeRefreshToken` on the consumed token — whose error
the Go code discards (`revokeOk = false` models that delete failing
silently).  Every early return leaves the table as it stood. -/
def refreshHandler (hash : String → String) (enc : List Nat → String)
    (db : TokenDB) (users : List UserRow) (payload : Option String)
    (tokenBytes : List Nat) (now : Int)
    (jwtOk randOk insertOk revokeOk : Bool) : RefreshResult × TokenDB :=
  match payload with
  | none => (.badRequest, db)
  | some refreshToken =>
    if refreshToken == "" then (.badRequest, db)
    else
      match validateRefreshToken hash db refreshToken now with
      | none => (.unauthorized, db)
      | some userId =>
        match users.find? (fun u => u.id == userId) with
        | none => (.unauthorized, db)
        | some user =>
          if !jwtOk then (.serverError, db)
          else
            match createRefreshToken hash enc db user.id tokenBytes now randOk insertOk with
            | .error dbErr => (.serverError, dbErr)
            | .ok (newRefreshToken, db1) =>
              let db2 := if revokeOk then revokeRefreshToken hash db1 refreshToken else db1
              (.ok user.id user.username newRefreshToken, db2)

/-- The `POST /api/setup/register` handler: decode the body
(`payload = none` is a JSON decode error, 400), reject an empty
username or password (400), reject a password shorter than 3
characters (400), then call `createUser` (403 when a user exists), and
on success issue the JWT and refresh token and answer 200.  The third
component records whether `createUser` was reached. -/
def setupRegisterHandler (pwHash : String → String) (hash : String → String)
    (enc : List Nat → String) (users : List UserRow) (tdb : TokenDB)
    (payload : Option (String × String)) (tokenBytes : List Nat) (now : Int) :
    Nat × List UserRow × TokenDB × Bool :=
  match payload with
  | none => (400, users, tdb, false)
  | some (username, password) =>
    if username == "" || password == "" then (400, users, tdb, false)
    else if password.length < 3 then (400, users, tdb, false)
    else
      match createUser pwHash users username password with
      | .error _ => (403, users, tdb, true)
      | .ok (u, users1) =>
        match createRefreshToken hash enc tdb u.id tokenBytes now true true with
        | .error tdbErr => (500, users1, tdbErr, true)
        | .ok (_, tdb1) => (200, users1, tdb1, true)

/-! ## Event hub (SSE registry) -/

/-- The three change-event kinds broadcast by the post handlers. -/
inductive EvKind where
  | created
  | updated
  | deleted
deriving Repr, DecidableEq

/-- A change event as it transits the hub: kind plus the post id the
JSON payload carries. -/
structure Event where
  kind : EvKind
  postId : Int
deriving Repr, DecidableEq

/-- `make(chan string, 16)` in the stream handler: each mailbox holds
at most 16 undelivered events. -/
def chanCapacity : Nat := 16

/-- The hub's shared state: `nextClientID` and the `clients` map
(association list id ↦ channel buffer), the `posts` table (ids only),
the snapshots each stream connection has captured, and the set of
closed channels (identified by owning client id, to detect a
double `close`). -/
structure Hub where
  nextClientID : Nat
  clients : List (Nat × List Event)
  posts : List Int
  snapshots : List (Nat × List Int)
  closedChans : List Nat
deriving Repr, DecidableEq

/-- The empty hub at process start. -/
def hubInit : Hub := ⟨0, [], [], [], []⟩

/-- The non-blocking `select { case ch <- msg: default: }` send:
enqueue when the buffer has room, otherwise drop the event. -/
def trySend (q : List Event) (e : Event) : List Event :=
  if q.length < chanCapacity then q ++ [e] else q

/-- `addClient`: under `clientsMu`, allocate the next id and register
the fresh (empty) channel. -/
def addClient (s : Hub) : Nat × Hub :=
  (s.nextClientID,
   { s with clients := s.clients ++ [(s.nextClientID, [])],
            nextClientID := s.nextClientID + 1 })

/-- `removeClient`: under `clientsMu`, look the channel up, delete the
map entry, then close the channel only when the lookup found one
(`ch != nil`).  The boolean result is true exactly when an
already-closed channel is closed again (a Go runtime panic). -/
def removeClient (s : Hub) (cid : Nat) : Hub × Bool :=
  match s.clients.find? (fun c => c.1 == cid) with
  | none =>
    ({ s with clients := s.clients.filter fun c => !(c.1 == cid) }, false)
  | some _ =>
    ({ s with clients := s.clients.filter fun c => !(c.1 == cid),
              closedChans := s.closedChans ++ [cid] },
     decide (cid ∈ s.closedChans))

/-- `broadcast`: under `clientsMu`, try-send the event to every
registered channel, dropping it wherever the buffer is full. -/
def broadcast (s : Hub) (e : Event) : Hub :=
  { s with clients := s.clients.map fun c => (c.1, trySend c.2 e) }

/-- The channel buffer of client `cid`, when registered. -/
def queueOf (s : Hub) (cid : Nat) : Option (List Event) :=
  (s.clients.find? fun c => c.1 == cid).map (·.2)

/-- The atomic steps the hub's state goes through.  `addClient`,
`publish` (= `broadcast`) and `dropClient` (= `removeClient`) each hold
`clientsMu` and are atomic; `commitPost` is one SQLite write; and
`takeSnapshot` is the stream handler's snapshot `SELECT`, which runs
*outside* the mutex. -/
inductive Action where
  | addClient
  | takeSnapshot (cid : Nat)
  | commitPost (p : Int)
  | publish (e : Event)
  | dropClient (cid : Nat)
deriving Repr, DecidableEq

/-- One atomic step of the hub. -/
def step (s : Hub) : Action → Hub
  | .addClient => (addClient s).2
  | .takeSnapshot cid => { s with snapshots := s.snapshots ++ [(cid, s.posts)] }
  | .commitPost p => { s with posts := s.posts ++ [p] }
  | .publish e => broadcast s e
  | .dropClient cid => (removeClient s cid).1

/-- Run a sequence of atomic steps. -/
def run (s : Hub) (as : List Action) : Hub := as.foldl step s

/-- The steps of the `GET /api/posts/stream` handler relevant to
registration, in source order: `addClient` first, the snapshot query
second. -/
def streamConnSteps (cid : Nat) : List Action :=
  [.addClient, .takeSnapshot cid]

/-- The steps of a post-create request: commit the row, then broadcast
`post-created`. -/
def createPostSteps (p : Int) : List Action :=
  [.commitPost p, .publish ⟨.created, p⟩]

/-- The events a step sequence publishes, in order. -/
def publishedEvents (as : List Action) : List Event :=
  as.filterMap fun a =>
    match a with
    | .publish e => some e
    | _ => none

/-- `Interleaves as bs cs`: `cs` is an order-preserving merge of the
two step sequences `as` and `bs` (two concurrent tasks). -/
inductive Interleaves : List Action → List Action → List Action → Prop where
  | nil : Interleaves [] [] []
  | left {a : Action} {as bs cs : List Action} :
      Interleaves as bs cs → Interleaves (a :: as) bs (a :: cs)
  | right {b : Action} {as bs cs : List Action} :
      Interleaves as bs cs → Interleaves as (b :: bs) (b :: cs)

/-- The `DELETE /api/posts/{id}` handler: `requireAuth` (401 on a
missing header or an invalid token), then `DELETE FROM posts WHERE
id = ?` — which succeeds whether or not a row matches — then 204 and
one `post-deleted` broadcast.  Result: status, remaining posts, and
the list of publish calls made. -/
def deletePostHandler (mac : List Nat → JWTClaims → String) (secret : List Nat)
    (auth : Option JWTWire) (now : Int) (posts : List Int) (pid : Int) :
    Nat × List Int × List Event :=
  match auth with
  | none => (401, posts, [])
  | some w =>
    match validateJWT mac secret w now with
    | none => (401, posts, [])
    | some _ =>
      (204, posts.filter (fun p => !(p == pid)), [⟨.deleted, pid⟩])

/-! ## Generic list helpers -/

/-- `find?` over an append keeps the answer found in the left part. -/
theorem find?_append_of_some {α : Type} {l1 l2 : List α} {p : α → Bool} {a : α}
    (h : l1.find? p = some a) : (l1 ++ l2).find? p = some a := by
  rw [List.find?_append, h]
  rfl

/-- `find?` over an append falls through a left part with no match. -/
theorem find?_append_of_none {α : Type} {l1 l2 : List α} {p : α → Bool}
    (h : l1.find? p = none) : (l1 ++ l2).find? p = l2.find? p := by
  rw [List.find?_append, h]
  rfl

/-- Filtering by a predicate implied by the search predicate does not
change the result of `find?`. -/
theorem find?_filter_of_imp {α : Type} {p q : α → Bool} (l : List α)
    (h : ∀ x, p x = true → q x = true) :
    (l.filter q).find? p = l.find? p := by
  induction l with
  | nil => rfl
  | cons a t ih =>
    by_cases hq : q a = true
    · rw [List.filter_cons_of_pos hq]
      by_cases hp : p a = true
      · simp [List.find?, hp]
      · simp only [Bool.not_eq_true] at hp
        simp [List.find?, hp, ih]
    · have hp : p a = false := by
        rcases Bool.eq_false_or_eq_true (p a) with h0 | h1
        · exact absurd (h a h0) hq
        · exact h1
      simp only [Bool.not_eq_true] at hq
      rw [List.filter_cons_of_neg (by simp [hq])]
      simp [List.find?, hp, ih]

/-- Searching for something the filter has removed yields nothing. -/
theorem find?_filter_eq_none {α : Type} {p q : α → Bool} (l : List α)
    (h : ∀ x, q x = true → p x = false) :
    (l.filter q).find? p = none := by
  refine List.find?_eq_none.mpr ?_
  intro x hx
  have hq := (List.mem_filter.mp hx).2
  simp [h x hq]

/-- Decidable equality for `Except`, so concrete witnesses can be
checked by `decide`. -/
instance {ε α : Type} [DecidableEq ε] [DecidableEq α] :
    DecidableEq (Except ε α) := fun x y =>
  match x, y with
  | .error a, .error b =>
    if h : a = b then .isTrue (by rw [h])
    else .isFalse (fun hxy => h (Except.error.inj hxy))
  | .error _, .ok _ => .isFalse (fun hxy => Except.noConfusion hxy)
  | .ok _, .error _ => .isFalse (fun hxy => Except.noConfusion hxy)
  | .ok a, .ok b =>
    if h : a = b then .isTrue (by rw [h])
    else .isFalse (fun hxy => h (Except.ok.inj hxy))

/-! ## Claim C4: `createRefreshToken` -/

/-- Claim C4:  For every call of `createRefreshToken` whose random source
and insert succeed: the returned raw token is the encoding of the 32
(= 256 bits) random bytes; a record whose `token_hash` is the one-way
hash of the raw token, with expiry `now + 30 days`, is persisted; the
owner's already-expired records are deleted while every other record
survives; and the only value added to storage is the hash record, never
the raw token itself. -/
theorem noet_c4_createRefreshToken_spec (hash : String → String)
    (enc : List Nat → String) (db : TokenDB) (userId : Int)
    (tokenBytes : List Nat) (now : Int) (raw : String) (db2 : TokenDB)
    (h : createRefreshToken hash enc db userId tokenBytes now true true =
      .ok (raw, db2)) :
    raw = enc tokenBytes ∧
    8 * refreshTokenNumBytes = 256 ∧
    (⟨userId, hash raw, now + thirtyDays, now⟩ : RefreshTokenRecord) ∈
      db2.refreshTokens ∧
    (∀ r ∈ db.refreshTokens, ¬(r.userId = userId ∧ r.expiresAt < now) →
      r ∈ db2.refreshTokens) ∧
    (∀ r ∈ db.refreshTokens, r.userId = userId → r.expiresAt < now →
      r ∉ db2.refreshTokens) ∧
    (∀ r ∈ db2.refreshTokens, r ∈ db.refreshTokens ∨
      r = ⟨userId, hash raw, now + thirtyDays, now⟩) := by
  simp only [createRefreshToken, Bool.not_true, Bool.false_eq_true,
    if_false, ite_false, Except.ok.injEq, Prod.mk.injEq] at h
  obtain ⟨hraw, hdb⟩ := h
  subst hraw
  subst hdb
  refine ⟨rfl, by decide, ?_, ?_, ?_, ?_⟩
  · simp [cleanupExpired]
  · intro r hr hcond
    simp only [cleanupExpired, List.mem_append]
    left
    simp only [List.mem_filter]
    refine ⟨hr, ?_⟩
    simp only [Bool.not_eq_true', Bool.and_eq_false_iff]
    rcases Decidable.em (r.userId = userId) with heq | hne
    · right
      simp [decide_eq_false, not_and.mp hcond heq]
    · left
      simp [hne]
  · intro r hr hu hexp habs
    simp only [cleanupExpired, List.mem_append, List.mem_filter,
      List.mem_singleton] at habs
    rcases habs with ⟨_, hkeep⟩ | hnew
    · simp [hu, hexp] at hkeep
    · have : r.expiresAt = now + thirtyDays := by rw [hnew]
      have hpos : (0 : Int) < thirtyDays := by norm_num [thirtyDays, secondsPerDay]
      omega
  · intro r hr
    simp only [cleanupExpired, List.mem_append, List.mem_filter,
      List.mem_singleton] at hr
    rcases hr with ⟨hmem, _⟩ | hnew
    · exact Or.inl hmem
    · exact Or.inr hnew

/-- Concrete stand-in for sha256-then-base64 in witnesses. -/
def hash0 : String → String := fun s => "h" ++ s

/-- Concrete stand-in for URL-base64 encoding in witnesses. -/
def enc0 : List Nat → String := fun _ => "tok"

/-- Witness for C4 at a concrete call: the hypotheses hold and the new
hash record is stored. -/
theorem noet_c4_witness :
    (createRefreshToken hash0 enc0 ⟨[]⟩ 1 (List.replicate 32 0) 0 true true =
      .ok ("tok", ⟨[⟨1, "htok", thirtyDays, 0⟩]⟩)) ∧
    (⟨1, hash0 "tok", 0 + thirtyDays, 0⟩ : RefreshTokenRecord) ∈
      (⟨[⟨1, "htok", thirtyDays, 0⟩]⟩ : TokenDB).refreshTokens :=
  ⟨by decide, (noet_c4_createRefreshToken_spec hash0 enc0 ⟨[]⟩ 1
    (List.replicate 32 0) 0 "tok" ⟨[⟨1, "htok", thirtyDays, 0⟩]⟩
    (by decide)).2.2.1⟩

/-! ## Claim C1: refresh-token rotation -/

/-- Once `revokeRefreshToken` has run on a raw token, that token no
longer validates: every record carrying its hash is gone. -/
theorem validateRefreshToken_after_revoke (hash : String → String)
    (db : TokenDB) (rt : String) (now : Int) :
    validateRefreshToken hash (revokeRefreshToken hash db rt) rt now = none := by
  unfold validateRefreshToken revokeRefreshToken
  rw [find?_filter_eq_none]
  · rfl
  · intro r hq
    simp only [Bool.not_eq_true'] at hq
    simp [hq]

/-- Claim C1, counterexample:  A concrete run of the `/api/auth/refresh`
handler in which the presented token passes validation (is redeemed)
but the insert of the replacement token fails: the handler answers 500
*without having deleted the consumed record* — the Go code only calls
`revokeRefreshToken` after both `generateJWT` and `createRefreshToken`
succeed — so the very same raw token still validates afterwards,
contradicting "never validates again ... even if a later step of the
rotation fails". -/
theorem noet_c1_counterexample :
    (refreshHandler hash0 enc0 ⟨[⟨1, "hr1", 100, 0⟩]⟩ [⟨1, "admin", "x"⟩]
        (some "r1") (List.replicate 32 0) 0 true true false true).1 =
      .serverError ∧
    validateRefreshToken hash0
      (refreshHandler hash0 enc0 ⟨[⟨1, "hr1", 100, 0⟩]⟩ [⟨1, "admin", "x"⟩]
        (some "r1") (List.replicate 32 0) 0 true true false true).2
      "r1" 0 = some 1 := by
  constructor
  · decide
  · decide

/-- Claim C1, amended:  When the `/api/auth/refresh` handler completes
successfully (HTTP 200) *and* the final — error-ignored — delete of the
consumed record itself succeeds, the old raw token never validates
again at any later time; but the flow is not atomic: if a later step of
the rotation fails after validation (see the counterexample), the
consumed record survives and the old token still validates. -/
theorem noet_c1_rotation_revokes_on_success (hash : String → String)
    (enc : List Nat → String) (db : TokenDB) (users : List UserRow)
    (rt : String) (tokenBytes : List Nat) (now now2 : Int)
    (jwtOk randOk insertOk : Bool) (uid : Int) (uname newRaw : String)
    (db2 : TokenDB)
    (h : refreshHandler hash enc db users (some rt) tokenBytes now
        jwtOk randOk insertOk true = (.ok uid uname newRaw, db2)) :
    validateRefreshToken hash db2 rt now2 = none := by
  simp only [refreshHandler] at h
  split at h
  · exact absurd (congrArg Prod.fst h) (by simp)
  split at h
  · exact absurd (congrArg Prod.fst h) (by simp)
  split at h
  · exact absurd (congrArg Prod.fst h) (by simp)
  split at h
  · exact absurd (congrArg Prod.fst h) (by simp)
  split at h
  · exact absurd (congrArg Prod.fst h) (by simp)
  obtain ⟨-, hdb⟩ := Prod.mk.injEq .. ▸ h
  subst hdb
  simp only [if_true]
  exact validateRefreshToken_after_revoke hash _ rt now2

/-- Witness for the amended C1 at a concrete successful rotation: the
hypothesis holds and the consumed token no longer validates. -/
theorem noet_c1_witness :
    (refreshHandler hash0 enc0 ⟨[⟨1, "hr1", 100, 0⟩]⟩ [⟨1, "admin", "x"⟩]
        (some "r1") (List.replicate 32 0) 0 true true true true =
      (.ok 1 "admin" "tok", ⟨[⟨1, "htok", 0 + thirtyDays, 0⟩]⟩)) ∧
    validateRefreshToken hash0 ⟨[⟨1, "htok", 0 + thirtyDays, 0⟩]⟩ "r1" 7 =
      none :=
  ⟨by decide, noet_c1_rotation_revokes_on_success hash0 enc0
    ⟨[⟨1, "hr1", 100, 0⟩]⟩ [⟨1, "admin", "x"⟩] "r1" (List.replicate 32 0)
    0 7 true true true 1 "admin" "tok" ⟨[⟨1, "htok", 0 + thirtyDays, 0⟩]⟩
    (by decide)⟩

/-! ## Claim C5: access-token issue/validate round trip -/

/-- Claim C5:  Issuing an access token and validating it before its
expiry returns the same identity (user id and username), the token
carries an absolute expiry 7 days after issuance, and validation of a
structurally malformed token, of a token whose signature is not the
process secret's MAC over its claims, or of an expired token returns
`Invalid` (`none`). -/
theorem noet_c5_jwt_roundtrip (mac : List Nat → JWTClaims → String)
    (secret : List Nat) (u : UserRow) (now now2 : Int) :
    ((generateJWT mac secret u now).claims.expiresAt = now + sevenDays) ∧
    (now2 < now + sevenDays →
      validateJWT mac secret (.good (generateJWT mac secret u now)) now2 =
        some ⟨u.id, u.username, now + sevenDays, now⟩) ∧
    (validateJWT mac secret .malformed now2 = none) ∧
    (∀ t : SignedJWT, t.sig ≠ mac secret t.claims →
      validateJWT mac secret (.good t) now2 = none) ∧
    (∀ t : SignedJWT, t.claims.expiresAt ≤ now2 →
      validateJWT mac secret (.good t) now2 = none) := by
  refine ⟨rfl, ?_, rfl, ?_, ?_⟩
  · intro hlt
    simp [validateJWT, generateJWT, hlt]
  · intro t hne
    simp [validateJWT, hne]
  · intro t hexp
    have : ¬ now2 < t.claims.expiresAt := by omega
    simp [validateJWT, this]

/-- Concrete stand-in for HMAC-SHA256 in witnesses. -/
def mac0 : List Nat → JWTClaims → String := fun secret c =>
  toString secret.length ++ c.username

/-- Witness for C5 at a concrete issuance validated immediately. -/
theorem noet_c5_witness :
    ((0 : Int) < 0 + sevenDays) ∧
    validateJWT mac0 [] (.good (generateJWT mac0 [] ⟨1, "admin", "x"⟩ 0)) 0 =
      some ⟨1, "admin", 0 + sevenDays, 0⟩ :=
  ⟨by decide, (noet_c5_jwt_roundtrip mac0 [] ⟨1, "admin", "x"⟩ 0 0).2.1
    (by decide)⟩

/-! ## Claim C6: the signing secret is generated at most once -/

/-- Claim C6:  `getOrCreateJWTSecret` is generate-at-most-once: calling
it again on the state a first call left behind returns the same secret
bytes and changes nothing (so two reads in one process lifetime are
byte-identical); when no secret is persisted, the call persists the
encoding of the fresh 32-byte (= 256-bit) random value and returns it;
when one is persisted, it is returned decoded and never regenerated.
`hround` is the base64 round-trip law of the real encoding. -/
theorem noet_c6_secret_once (enc : List Nat → String)
    (dec : String → List Nat) (db : SettingsDB) (r1 r2 : List Nat)
    (hround : dec (enc r1) = r1) :
    (getOrCreateJWTSecret enc dec (getOrCreateJWTSecret enc dec db r1).2 r2 =
      ((getOrCreateJWTSecret enc dec db r1).1,
       (getOrCreateJWTSecret enc dec db r1).2)) ∧
    (db.settings.find? (fun kv => kv.1 == "jwt_secret") = none →
      (getOrCreateJWTSecret enc dec db r1).1 = r1 ∧
      (getOrCreateJWTSecret enc dec db r1).2.settings =
        db.settings ++ [("jwt_secret", enc r1)]) ∧
    (∀ kv, db.settings.find? (fun kv => kv.1 == "jwt_secret") = some kv →
      getOrCreateJWTSecret enc dec db r1 = (dec kv.2, db)) ∧
    8 * jwtSecretNumBytes = 256 := by
  refine ⟨?_, ?_, ?_, by decide⟩
  · cases hfind : db.settings.find? (fun kv => kv.1 == "jwt_secret") with
    | some kv =>
      simp [getOrCreateJWTSecret, hfind]
    | none =>
      have hsnd : (getOrCreateJWTSecret enc dec db r1).2.settings =
          db.settings ++ [("jwt_secret", enc r1)] := by
        simp [getOrCreateJWTSecret, hfind]
      have hfst : (getOrCreateJWTSecret enc dec db r1).1 = r1 := by
        simp [getOrCreateJWTSecret, hfind]
      have hfind2 : (getOrCreateJWTSecret enc dec db r1).2.settings.find?
          (fun kv => kv.1 == "jwt_secret") = some ("jwt_secret", enc r1) := by
        rw [hsnd, find?_append_of_none hfind]
        simp [List.find?]
      conv_lhs => rw [getOrCreateJWTSecret]
      rw [hfind2]
      simp only [hround]
      exact Prod.ext hfst.symm rfl
  · intro hfind
    constructor
    · simp [getOrCreateJWTSecret, hfind]
    · simp [getOrCreateJWTSecret, hfind]
  · intro kv hfind
    simp [getOrCreateJWTSecret, hfind]

/-- Concrete encoding stand-ins for the C6 witness. -/
def encSecret0 : List Nat → String := fun _ => "s"

/-- Concrete decoding stand-in for the C6 witness. -/
def decSecret0 : String → List Nat := fun _ => [7]

/-- Witness for C6: round-trip law holds at the instance and a second
call on a fresh store returns the same secret with no state change. -/
theorem noet_c6_witness :
    (decSecret0 (encSecret0 [7]) = [7]) ∧
    (getOrCreateJWTSecret encSecret0 decSecret0
        (getOrCreateJWTSecret encSecret0 decSecret0 ⟨[]⟩ [7]).2 [9] =
      ((getOrCreateJWTSecret encSecret0 decSecret0 ⟨[]⟩ [7]).1,
       (getOrCreateJWTSecret encSecret0 decSecret0 ⟨[]⟩ [7]).2)) :=
  ⟨by decide, (noet_c6_secret_once encSecret0 decSecret0 ⟨[]⟩ [7] [9]
    (by decide)).1⟩

/-! ## Claim C10: registration input validation -/

/-- Claim C10:  `POST /api/setup/register` answers 400 — with the user
table and token table untouched and `createUser` not reached — for
every payload whose username or password is empty or whose password is
shorter than 3 characters; conversely, whenever `createUser` is
reached, the username and password are nonempty and the password has at
least 3 characters. -/
theorem noet_c10_register_validation (pwHash hash : String → String)
    (enc : List Nat → String) (users : List UserRow) (tdb : TokenDB)
    (username password : String) (tokenBytes : List Nat) (now : Int) :
    ((username = "" ∨ password = "" ∨ password.length < 3) →
      setupRegisterHandler pwHash hash enc users tdb
          (some (username, password)) tokenBytes now =
        (400, users, tdb, false)) ∧
    ((setupRegisterHandler pwHash hash enc users tdb
        (some (username, password)) tokenBytes now).2.2.2 = true →
      username ≠ "" ∧ password ≠ "" ∧ 3 ≤ password.length) := by
  constructor
  · intro hbad
    by_cases hu : username = ""
    · simp [setupRegisterHandler, hu]
    · by_cases hp : password = ""
      · simp [setupRegisterHandler, hp]
      · have hlen : password.length < 3 := by tauto
        simp [setupRegisterHandler, hu, hp, hlen]
  · intro hreached
    by_cases hu : username = ""
    · simp [setupRegisterHandler, hu] at hreached
    · by_cases hp : password = ""
      · simp [setupRegisterHandler, hp] at hreached
      · by_cases hlen : password.length < 3
        · simp [setupRegisterHandler, hu, hp, hlen] at hreached
        · exact ⟨hu, hp, by omega⟩

/-- Witness for C10 at a concrete bad payload (password too short). -/
theorem noet_c10_witness :
    (("admin" : String) = "" ∨ ("ab" : String) = "" ∨
      ("ab" : String).length < 3) ∧
    setupRegisterHandler hash0 hash0 enc0 [] ⟨[]⟩ (some ("admin", "ab"))
        (List.replicate 32 0) 0 =
      (400, [], ⟨[]⟩, false) :=
  ⟨by decide, (noet_c10_register_validation hash0 hash0 enc0 [] ⟨[]⟩
    "admin" "ab" (List.replicate 32 0) 0).1 (by decide)⟩

/-! ## Claim C9: DELETE on a missing post -/

/-- Claim C9:  With a valid access token, `DELETE /api/posts/{id}` on an
id with no matching post still answers 204 and still issues exactly one
`post-deleted` publish for that id, leaving the post table unchanged;
and for *every* post table the status and the published events are the
same — a no-op deletion is indistinguishable from a real one at the
HTTP interface and on the event stream. -/
theorem noet_c9_delete_missing_post (mac : List Nat → JWTClaims → String)
    (secret : List Nat) (w : JWTWire) (now : Int) (posts : List Int)
    (pid : Int) (c : JWTClaims)
    (hauth : validateJWT mac secret w now = some c)
    (habsent : pid ∉ posts) :
    deletePostHandler mac secret (some w) now posts pid =
      (204, posts, [⟨.deleted, pid⟩]) ∧
    (∀ posts2 : List Int,
      (deletePostHandler mac secret (some w) now posts2 pid).1 = 204 ∧
      (deletePostHandler mac secret (some w) now posts2 pid).2.2 =
        [⟨.deleted, pid⟩]) := by
  constructor
  · have hfilter : posts.filter (fun p => !(p == pid)) = posts := by
      refine List.filter_eq_self.mpr ?_
      intro p hp
      have : p ≠ pid := fun heq => habsent (heq ▸ hp)
      simp [this]
    simp [deletePostHandler, hauth, hfilter]
  · intro posts2
    constructor
    · simp [deletePostHandler, hauth]
    · simp [deletePostHandler, hauth]

/-- Witness for C9: a concretely valid token and an id absent from the
post table. -/
theorem noet_c9_witness :
    (validateJWT mac0 [] (.good ⟨⟨1, "admin", 10, 0⟩,
        mac0 [] ⟨1, "admin", 10, 0⟩⟩) 0 = some ⟨1, "admin", 10, 0⟩) ∧
    ((3 : Int) ∉ ([5] : List Int)) ∧
    deletePostHandler mac0 [] (some (.good ⟨⟨1, "admin", 10, 0⟩,
        mac0 [] ⟨1, "admin", 10, 0⟩⟩)) 0 [5] 3 =
      (204, [5], [⟨.deleted, 3⟩]) :=
  ⟨by decide, by decide,
    (noet_c9_delete_missing_post mac0 [] (.good ⟨⟨1, "admin", 10, 0⟩,
      mac0 [] ⟨1, "admin", 10, 0⟩⟩) 0 [5] 3 ⟨1, "admin", 10, 0⟩
      (by decide) (by decide)).1⟩

/-! ## Claim C8: `removeClient` is idempotent -/

/-- Claim C8:  Unregistering the same mailbox id twice, or unregistering
an id that was never registered, is safe: the second call on the same
id returns the state unchanged and does not close any channel (no
double-free — the boolean "closed an already-closed channel" flag is
false), and a call on an unregistered id is a complete no-op. -/
theorem noet_c8_removeClient_idempotent (s : Hub) (cid : Nat) :
    (removeClient (removeClient s cid).1 cid = ((removeClient s cid).1, false)) ∧
    ((s.clients.find? fun c => c.1 == cid) = none →
      removeClient s cid = (s, false)) := by
  have hchar : ∀ s1 : Hub, (s1.clients.find? fun c => c.1 == cid) = none →
      removeClient s1 cid =
        ({ s1 with clients := s1.clients.filter fun c => !(c.1 == cid) },
         false) := by
    intro s1 hnone
    unfold removeClient
    rw [hnone]
  constructor
  · have hclients : (removeClient s cid).1.clients =
        s.clients.filter fun c => !(c.1 == cid) := by
      unfold removeClient
      cases hf : s.clients.find? fun c => c.1 == cid <;> simp
    have hnone : ((removeClient s cid).1.clients.find? fun c => c.1 == cid) =
        none := by
      rw [hclients]
      exact find?_filter_eq_none _ (by intro x hx; simpa using hx)
    have hfilter : ((removeClient s cid).1.clients.filter
        fun c => !(c.1 == cid)) = (removeClient s cid).1.clients := by
      rw [hclients]
      refine List.filter_eq_self.mpr ?_
      intro x hx
      exact (List.mem_filter.mp hx).2
    rw [hchar _ hnone, hfilter]
  · intro hnone
    have hfilter : (s.clients.filter fun c => !(c.1 == cid)) = s.clients := by
      refine List.filter_eq_self.mpr ?_
      intro x hx
      have := List.find?_eq_none.mp hnone x hx
      simpa using this
    rw [hchar s hnone, hfilter]

/-- Witness for C8: removing an id never registered on the empty hub is
a no-op. -/
theorem noet_c8_witness :
    ((hubInit.clients.find? fun c => c.1 == 0) = none) ∧
    removeClient hubInit 0 = (hubInit, false) :=
  ⟨by decide, (noet_c8_removeClient_idempotent hubInit 0).2 (by decide)⟩

/-! ## Claim C7: `broadcast` delivery -/

/-- A broadcast transforms each registered queue by the non-blocking
try-send, and registers or removes nobody. -/
theorem queueOf_broadcast (s : Hub) (e : Event) (cid : Nat) :
    queueOf (broadcast s e) cid = (queueOf s cid).map (fun q => trySend q e) := by
  unfold queueOf broadcast
  simp only []
  rw [List.find?_map]
  have hpred : (fun c : Nat × List Event => c.1 == cid) =
      ((fun c : Nat × List Event => c.1 == cid) ∘
        fun c : Nat × List Event => (c.1, trySend c.2 e)) := rfl
  conv_rhs => rw [hpred]
  cases hfind : s.clients.find?
      ((fun c : Nat × List Event => c.1 == cid) ∘
        fun c : Nat × List Event => (c.1, trySend c.2 e)) with
  | none => simp [hfind]
  | some a => simp [hfind]

/-- Claim C7:  `broadcast` delivers the event to every currently
registered mailbox whose bounded queue (capacity 16) has space,
appending it in publish order — two consecutive publishes arrive in
order; a mailbox with a full queue keeps its queue unchanged (the event
is dropped for it, never retried, and the publisher is otherwise
unaffected); an unregistered id stays unregistered; and a broadcast
with zero registered subscribers leaves the hub state completely
unchanged. -/
theorem noet_c7_broadcast_delivery (s : Hub) (e : Event) :
    (s.clients = [] → broadcast s e = s) ∧
    (∀ cid q, queueOf s cid = some q → q.length < chanCapacity →
      queueOf (broadcast s e) cid = some (q ++ [e])) ∧
    (∀ cid q, queueOf s cid = some q → ¬ q.length < chanCapacity →
      queueOf (broadcast s e) cid = some q) ∧
    (∀ cid, queueOf s cid = none → queueOf (broadcast s e) cid = none) ∧
    (∀ e2 cid q, queueOf s cid = some q → q.length + 2 ≤ chanCapacity →
      queueOf (broadcast (broadcast s e) e2) cid = some (q ++ [e] ++ [e2])) := by
  refine ⟨?_, ?_, ?_, ?_, ?_⟩
  · intro hempty
    unfold broadcast
    rw [hempty]
    simp only [List.map_nil]
    rw [← hempty]
  · intro cid q hq hroom
    rw [queueOf_broadcast, hq]
    simp [trySend, hroom]
  · intro cid q hq hfull
    rw [queueOf_broadcast, hq]
    simp [trySend, hfull]
  · intro cid hq
    rw [queueOf_broadcast, hq]
    rfl
  · intro e2 cid q hq hroom
    rw [queueOf_broadcast, queueOf_broadcast, hq]
    have h1 : q.length < chanCapacity := by omega
    have h2 : q.length + 1 < chanCapacity := by omega
    simp [trySend, h1, h2]

/-- Witness for C7: a hub with one empty mailbox receives a broadcast
event. -/
theorem noet_c7_witness :
    (queueOf ⟨1, [(0, [])], [], [], []⟩ 0 = some []) ∧
    queueOf (broadcast ⟨1, [(0, [])], [], [], []⟩ ⟨.created, 1⟩) 0 =
      some [⟨.created, 1⟩] :=
  ⟨by decide, (noet_c7_broadcast_delivery ⟨1, [(0, [])], [], [], []⟩
    ⟨.created, 1⟩).2.1 0 [] (by decide) (by decide)⟩

/-! ## Interleaving and delivery lemmas for the hub trace semantics -/

/-- Everything interleaves with the empty task. -/
theorem interleaves_nil_left (bs : List Action) : Interleaves [] bs bs := by
  induction bs with
  | nil => exact .nil
  | cons b t ih => exact .right ih

/-- A one-step task may run at any point of the other task. -/
theorem interleaves_one (b : Action) (x y : List Action) :
    Interleaves [b] (x ++ y) (x ++ b :: y) := by
  induction x with
  | nil => exact .left (interleaves_nil_left y)
  | cons a t ih => exact .right ih

/-- A two-step task may run its first step first and its second step at
any later point of the other task. -/
theorem interleaves_two (a b : Action) (x y : List Action) :
    Interleaves [a, b] (x ++ y) (a :: (x ++ b :: y)) :=
  .left (interleaves_one b x y)

/-- A registered queue survives another connection's `addClient`. -/
theorem queueOf_step_addClient (s : Hub) (cid : Nat) (q : List Event)
    (h : queueOf s cid = some q) :
    queueOf (step s .addClient) cid = some q := by
  unfold queueOf at h ⊢
  simp only [step, addClient]
  obtain ⟨c, hc, hq⟩ := Option.map_eq_some'.mp h
  rw [find?_append_of_some hc]
  simp [hq]

/-- Registering when the fresh id is not yet present creates an empty
queue for it. -/
theorem queueOf_addClient_fresh (s : Hub)
    (h : queueOf s s.nextClientID = none) :
    queueOf (step s .addClient) s.nextClientID = some [] := by
  unfold queueOf at h ⊢
  simp only [step, addClient]
  have hnone : (s.clients.find? fun c => c.1 == s.nextClientID) = none :=
    Option.map_eq_none'.mp h
  rw [find?_append_of_none hnone]
  simp [List.find?]

/-- Removing a different client leaves a queue untouched. -/
theorem queueOf_step_dropClient (s : Hub) (cid c2 : Nat) (hne : cid ≠ c2) :
    queueOf (step s (.dropClient c2)) cid = queueOf s cid := by
  have hclients : ((removeClient s c2).1).clients =
      s.clients.filter fun c => !(c.1 == c2) := by
    unfold removeClient
    cases hf : s.clients.find? fun c => c.1 == c2 <;> simp
  show queueOf (removeClient s c2).1 cid = queueOf s cid
  unfold queueOf
  rw [hclients, find?_filter_of_imp]
  intro x hx
  have : x.1 = cid := by simpa using hx
  simp [this, hne]

/-- The mailbox contents after a run: starting from a registered queue
with enough free capacity for every event the remaining steps publish,
and never dropped, the mailbox ends holding its old contents followed
by exactly the published events, in publish order. -/
theorem queueOf_run_delivery (cid : Nat) (as : List Action) :
    ∀ (s : Hub) (q : List Event), queueOf s cid = some q →
      q.length + (publishedEvents as).length ≤ chanCapacity →
      Action.dropClient cid ∉ as →
      queueOf (run s as) cid = some (q ++ publishedEvents as) := by
  induction as with
  | nil =>
    intro s q h _ _
    simpa [run, publishedEvents] using h
  | cons a t ih =>
    intro s q h hlen hdrop
    have hdropt : Action.dropClient cid ∉ t :=
      fun hm => hdrop (List.mem_cons_of_mem _ hm)
    have hrun : run s (a :: t) = run (step s a) t := rfl
    rw [hrun]
    cases a with
    | addClient =>
      have h2 := queueOf_step_addClient s cid q h
      have := ih (step s .addClient) q h2
        (by simpa [publishedEvents, List.filterMap_cons] using hlen) hdropt
      simpa [publishedEvents, List.filterMap_cons] using this
    | takeSnapshot c2 =>
      have := ih (step s (.takeSnapshot c2)) q h
        (by simpa [publishedEvents, List.filterMap_cons] using hlen) hdropt
      simpa [publishedEvents, List.filterMap_cons] using this
    | commitPost p =>
      have := ih (step s (.commitPost p)) q h
        (by simpa [publishedEvents, List.filterMap_cons] using hlen) hdropt
      simpa [publishedEvents, List.filterMap_cons] using this
    | publish e =>
      have hq1 : q.length < chanCapacity := by
        simp only [publishedEvents, List.filterMap_cons, List.length_cons] at hlen
        omega
      have h2 : queueOf (step s (.publish e)) cid = some (q ++ [e]) := by
        rw [show step s (.publish e) = broadcast s e from rfl,
          queueOf_broadcast, h]
        simp [trySend, hq1]
      have := ih (step s (.publish e)) (q ++ [e]) h2
        (by
          simp only [publishedEvents, List.filterMap_cons, List.length_cons,
            List.length_append, List.length_nil] at hlen ⊢
          omega) hdropt
      simpa [publishedEvents, List.filterMap_cons, List.append_assoc] using this
    | dropClient c2 =>
      have hne : cid ≠ c2 := by
        intro heq
        exact hdrop (by rw [heq]; exact List.mem_cons_self _ _)
      have h2 : queueOf (step s (.dropClient c2)) cid = some q := by
        rw [queueOf_step_dropClient s cid c2 hne]
        exact h
      have := ih (step s (.dropClient c2)) q h2
        (by simpa [publishedEvents, List.filterMap_cons] using hlen) hdropt
      simpa [publishedEvents, List.filterMap_cons] using this

/-! ## Claims C2 and C3: snapshot vs. registration vs. publish -/

/-- Eighteen sequential post-create requests (commit then broadcast). -/
def pubSeq18 : List Action :=
  ((List.range 18).map fun k => createPostSteps ((k : Int) + 1)).flatten

/-- An interleaving of a stream connection with `pubSeq18`: the first
create runs entirely between the connection's `addClient` and its
snapshot query; the other seventeen follow. -/
def trace18 : List Action :=
  .addClient :: (createPostSteps 1 ++ .takeSnapshot 0 ::
    ((List.range 17).map fun k => createPostSteps ((k : Int) + 2)).flatten)

/-- Claim C3, counterexample:  It is false that in every interleaving of
a new stream connection with a publisher no publish is delivered to the
new mailbox between `addClient` and the snapshot query: decomposing any
interleaving at the snapshot step, the claim says the new mailbox is
still empty there, yet in the interleaving `addClient; commit;
broadcast; snapshot` the mailbox already holds the published event when
the snapshot is taken — the code takes the snapshot outside the mutex
that `addClient` and `broadcast` each hold separately. -/
theorem noet_c3_counterexample :
    ¬ ∀ (pre post : List Action),
        Interleaves (streamConnSteps 0) (createPostSteps 1)
          (pre ++ Action.takeSnapshot 0 :: post) →
        queueOf (run hubInit pre) 0 = some [] := by
  intro hall
  have hint : Interleaves (streamConnSteps 0) (createPostSteps 1)
      ([Action.addClient, Action.commitPost 1,
        Action.publish ⟨.created, 1⟩] ++ Action.takeSnapshot 0 :: []) := by
    have := interleaves_two Action.addClient (Action.takeSnapshot 0)
      (createPostSteps 1) ([] : List Action)
    simpa [streamConnSteps, createPostSteps] using this
  have := hall [Action.addClient, Action.commitPost 1,
    Action.publish ⟨.created, 1⟩] [] hint
  exact absurd this (by decide)

/-- Claim C3, amended:  `addClient` and `broadcast` are each atomic (they
hold the one mutex), but the snapshot query runs after registration
outside any critical section shared with the publish path, so snapshot
capture and registration are *not* one atomic step: there is an
interleaving of a fresh stream connection with a publisher in which the
publish is delivered to the new mailbox before its snapshot is taken
(and the snapshot then also reflects that very change). -/
theorem noet_c3_register_snapshot_not_atomic :
    ∃ pre post : List Action,
      Interleaves (streamConnSteps 0) (createPostSteps 1)
        (pre ++ Action.takeSnapshot 0 :: post) ∧
      queueOf (run hubInit pre) 0 = some [⟨.created, 1⟩] ∧
      (run hubInit (pre ++ Action.takeSnapshot 0 :: post)).snapshots =
        [(0, [1])] := by
  refine ⟨[Action.addClient, Action.commitPost 1,
    Action.publish ⟨.created, 1⟩], [], ?_, by decide, by decide⟩
  have := interleaves_two Action.addClient (Action.takeSnapshot 0)
    (createPostSteps 1) ([] : List Action)
  simpa [streamConnSteps, createPostSteps] using this

/-- Claim C2, counterexample:  A run violating "the registered mailbox
receives exactly the events published strictly after its registration
point, no event reflected in the snapshot is redelivered, and no
committed change is dropped": in `trace18`, all 18 events are published
strictly after registration, yet the mailbox receives only the first 16
(capacity-16 queue, events 17 and 18 are dropped), and the first event
is delivered *and* its post is already reflected in the mailbox's
snapshot (the snapshot is taken after registration). -/
theorem noet_c2_counterexample :
    Interleaves (streamConnSteps 0) pubSeq18 trace18 ∧
    publishedEvents pubSeq18 =
      (List.range 18).map (fun k => ⟨.created, (k : Int) + 1⟩) ∧
    queueOf (run hubInit trace18) 0 =
      some ((List.range 16).map fun k => ⟨.created, (k : Int) + 1⟩) ∧
    queueOf (run hubInit trace18) 0 ≠ some (publishedEvents pubSeq18) ∧
    (run hubInit trace18).snapshots = [(0, [1])] := by
  refine ⟨?_, by decide, by decide, by decide, by decide⟩
  have h1 : pubSeq18 = createPostSteps 1 ++
      ((List.range 17).map fun k => createPostSteps ((k : Int) + 2)).flatten := by
    decide
  rw [h1]
  exact interleaves_two Action.addClient (Action.takeSnapshot 0)
    (createPostSteps 1)
    (((List.range 17).map fun k => createPostSteps ((k : Int) + 2)).flatten)

/-- Claim C2, amended:  A freshly registered mailbox receives, in publish
order, exactly the events published strictly after its registration,
*provided* its 16-slot queue never overflows (events broadcast onto a
full queue are dropped); and because the snapshot query runs after
registration, an event published in between is delivered to the
mailbox even though the snapshot already reflects it — snapshot and
stream can duplicate a change. -/
theorem noet_c2_delivery_after_registration (s : Hub) (as : List Action)
    (hfresh : queueOf s s.nextClientID = none)
    (hcap : (publishedEvents as).length ≤ chanCapacity)
    (hdrop : Action.dropClient s.nextClientID ∉ as) :
    queueOf (run (step s .addClient) as) s.nextClientID =
      some (publishedEvents as) ∧
    (∃ cs : List Action,
      Interleaves (streamConnSteps 0) (createPostSteps 1) cs ∧
      (run hubInit cs).snapshots = [(0, [1])] ∧
      queueOf (run hubInit cs) 0 = some [⟨.created, 1⟩]) := by
  constructor
  · have h0 := queueOf_addClient_fresh s hfresh
    have := queueOf_run_delivery s.nextClientID as (step s .addClient) [] h0
      (by simpa using hcap) hdrop
    simpa using this
  · refine ⟨[Action.addClient, Action.commitPost 1,
      Action.publish ⟨.created, 1⟩, Action.takeSnapshot 0],
      ?_, by decide, by decide⟩
    have := interleaves_two Action.addClient (Action.takeSnapshot 0)
      (createPostSteps 1) ([] : List Action)
    simpa [streamConnSteps, createPostSteps] using this

/-- Witness for the amended C2: one publish after a fresh registration
on the empty hub is delivered. -/
theorem noet_c2_witness :
    (queueOf hubInit hubInit.nextClientID = none) ∧
    ((publishedEvents [Action.publish ⟨.created, 1⟩]).length ≤ chanCapacity) ∧
    (Action.dropClient hubInit.nextClientID ∉
      [Action.publish (⟨.created, 1⟩ : Event)]) ∧
    queueOf (run (step hubInit .addClient) [Action.publish ⟨.created, 1⟩])
        hubInit.nextClientID =
      some (publishedEvents [Action.publish ⟨.created, 1⟩]) :=
  ⟨by decide, by decide, by decide,
    (noet_c2_delivery_after_registration hubInit
      [Action.publish ⟨.created, 1⟩] (by decide) (by decide) (by decide)).1⟩

end Noet
